import Mathlib

/-!
Verification development for the `imageColoring` repository (`src/Model.py`).

The file shallowly embeds the two networks defined there — a U-Net style
`Generator` and a PatchGAN-style `Critic` — over rational-valued 4D tensors.
Each PyTorch layer used by the source (`nn.Conv2d`, `nn.ConvTranspose2d`,
`nn.BatchNorm2d`, `nn.InstanceNorm2d`, `nn.MaxPool2d`, `nn.ReLU`,
`nn.LeakyReLU`, `torch.cat`) is modelled as a function on tensors that
returns `none` exactly where the library raises an error (kernel larger
than the padded input, channel mismatch, concatenation-shape mismatch,
batch/instance normalization applied to a single value per channel).
Floating-point square root is opaque, so every definition that normalizes
takes an arbitrary `sqrt : ℚ → ℚ` parameter.

Stateful behaviour (`BatchNorm2d` running statistics and batch counter,
updated by a forward pass in training mode, per the PyTorch semantics of
the layers instantiated in `Model.py`) is embedded by explicit state
passing: a module's forward returns the updated module next to its output.
-/

namespace ImageColoring

/-- A 4D activation tensor `(batch, channel, height, width)`; the payload is a
total function so out-of-range reads are harmless and never consulted. -/
structure Tensor4 where
  n : ℕ
  c : ℕ
  h : ℕ
  w : ℕ
  data : ℕ → ℕ → ℕ → ℕ → ℚ

/-- Shared `eps` of `nn.BatchNorm2d` / `nn.InstanceNorm2d` (default `1e-5`). -/
def normEps : ℚ := 1 / 100000

/-- Default momentum of `nn.BatchNorm2d` (`0.1`). -/
def bnMomentum : ℚ := 1 / 10

/-- Negative slope `0.2` of the Critic's `nn.LeakyReLU(0.2)`. -/
def lreluSlope : ℚ := 1 / 5

/-- Zero padding of a tensor's spatial plane by `p` on every side. -/
def padData (x : Tensor4) (p : ℕ) : ℕ → ℕ → ℕ → ℕ → ℚ :=
  fun n c i j =>
    if p ≤ i ∧ i < x.h + p ∧ p ≤ j ∧ j < x.w + p then x.data n c (i - p) (j - p) else 0

/-- `nn.Conv2d(inC, outC, kernel_size=k, stride=s, padding=p, bias=...)` applied
to an input: fails exactly when the channel count mismatches or the kernel
exceeds the padded input (PyTorch raises in both cases); output spatial size is
`(d + 2p - k) / s + 1` (floor), the documented formula. -/
def conv2d (inC outC k s p : ℕ) (bias : Option (ℕ → ℚ)) (w : ℕ → ℕ → ℕ → ℕ → ℚ)
    (x : Tensor4) : Option Tensor4 :=
  if x.c = inC ∧ k ≤ x.h + 2 * p ∧ k ≤ x.w + 2 * p then
    some { n := x.n, c := outC,
           h := (x.h + 2 * p - k) / s + 1, w := (x.w + 2 * p - k) / s + 1,
           data := fun n oc i j =>
             (bias.getD (fun _ => 0)) oc +
             ∑ ic ∈ Finset.range inC, ∑ a ∈ Finset.range k, ∑ b ∈ Finset.range k,
               w oc ic a b * padData x p n ic (i * s + a) (j * s + b) }
  else none

/-- `nn.ConvTranspose2d(inC, outC, kernel_size=k, stride=s, padding=p)` with
weight layout `(inC, outC, k, k)`; output spatial size `(d - 1)·s - 2p + k`. -/
def conv_transpose2d (inC outC k s p : ℕ) (bias : Option (ℕ → ℚ))
    (w : ℕ → ℕ → ℕ → ℕ → ℚ) (x : Tensor4) : Option Tensor4 :=
  if x.c = inC ∧ 1 ≤ x.h ∧ 1 ≤ x.w then
    some { n := x.n, c := outC,
           h := (x.h - 1) * s + k - 2 * p, w := (x.w - 1) * s + k - 2 * p,
           data := fun n oc y z =>
             (bias.getD (fun _ => 0)) oc +
             ∑ ic ∈ Finset.range inC, ∑ i ∈ Finset.range x.h, ∑ j ∈ Finset.range x.w,
               ∑ a ∈ Finset.range k, ∑ b ∈ Finset.range k,
                 if y + p = i * s + a ∧ z + p = j * s + b then
                   w ic oc a b * x.data n ic i j
                 else 0 }
  else none

/-- Sum of `f` over the batch and both spatial dimensions. -/
def sum3 (N H W : ℕ) (f : ℕ → ℕ → ℕ → ℚ) : ℚ :=
  ∑ n ∈ Finset.range N, ∑ i ∈ Finset.range H, ∑ j ∈ Finset.range W, f n i j

/-- Per-channel mean over `(batch, height, width)`, as used by `BatchNorm2d`
in training mode. -/
def batchMean (x : Tensor4) (c : ℕ) : ℚ :=
  sum3 x.n x.h x.w (fun n i j => x.data n c i j) / ((x.n * x.h * x.w : ℕ) : ℚ)

/-- Biased per-channel variance (used for normalization in training mode). -/
def batchVarBiased (x : Tensor4) (c : ℕ) : ℚ :=
  sum3 x.n x.h x.w (fun n i j => (x.data n c i j - batchMean x c) ^ 2) /
    ((x.n * x.h * x.w : ℕ) : ℚ)

/-- Unbiased per-channel variance (used for the running-variance update). -/
def batchVarUnbiased (x : Tensor4) (c : ℕ) : ℚ :=
  sum3 x.n x.h x.w (fun n i j => (x.data n c i j - batchMean x c) ^ 2) /
    ((x.n * x.h * x.w - 1 : ℕ) : ℚ)

/-- The mutable part of an `nn.BatchNorm2d` layer: affine parameters
(`weight`/`bias`, here `gamma`/`beta`), running statistics and the batch
counter. -/
structure BNmod where
  gamma : ℕ → ℚ
  beta : ℕ → ℚ
  rmean : ℕ → ℚ
  rvar : ℕ → ℚ
  nbt : ℕ

/-- `nn.BatchNorm2d(features)` forward.  In training mode PyTorch refuses a
single value per channel (`Expected more than 1 value per channel`), uses the
batch statistics to normalize, and updates the running statistics with
momentum `0.1` (unbiased variance) as well as `num_batches_tracked`.  In eval
mode it normalizes with the stored running statistics and changes nothing. -/
def batch_norm (sqrt : ℚ → ℚ) (features : ℕ) (m : BNmod) (training : Bool)
    (x : Tensor4) : Option (Tensor4 × BNmod) :=
  if x.c = features then
    if training then
      if x.n * x.h * x.w = 1 then none
      else
        some ({ x with data := fun n c i j =>
                  m.gamma c * ((x.data n c i j - batchMean x c) /
                    sqrt (batchVarBiased x c + normEps)) + m.beta c },
              { m with
                  rmean := fun c =>
                    (1 - bnMomentum) * m.rmean c + bnMomentum * batchMean x c,
                  rvar := fun c =>
                    (1 - bnMomentum) * m.rvar c + bnMomentum * batchVarUnbiased x c,
                  nbt := m.nbt + 1 })
    else
      some ({ x with data := fun n c i j =>
                m.gamma c * ((x.data n c i j - m.rmean c) /
                  sqrt (m.rvar c + normEps)) + m.beta c }, m)
  else none

/-- Per-instance, per-channel spatial mean, as used by `InstanceNorm2d`. -/
def instMean (x : Tensor4) (n c : ℕ) : ℚ :=
  (∑ i ∈ Finset.range x.h, ∑ j ∈ Finset.range x.w, x.data n c i j) /
    ((x.h * x.w : ℕ) : ℚ)

/-- Per-instance, per-channel biased spatial variance. -/
def instVar (x : Tensor4) (n c : ℕ) : ℚ :=
  (∑ i ∈ Finset.range x.h, ∑ j ∈ Finset.range x.w, (x.data n c i j - instMean x n c) ^ 2) /
    ((x.h * x.w : ℕ) : ℚ)

/-- `nn.InstanceNorm2d` with the defaults of `Model.py` (`affine=False`,
`track_running_stats=False`): always normalizes with the instance statistics,
carries no parameters or buffers, and refuses a single spatial element
(`Expected more than 1 spatial element`). -/
def instance_norm (sqrt : ℚ → ℚ) (x : Tensor4) : Option Tensor4 :=
  if x.h * x.w = 1 then none
  else
    some { x with data := fun n c i j =>
             (x.data n c i j - instMean x n c) / sqrt (instVar x n c + normEps) }

/-- `nn.ReLU` (the in-place flag affects only aliasing, not the value). -/
def relu (x : Tensor4) : Tensor4 :=
  { x with data := fun n c i j => max (x.data n c i j) 0 }

/-- `nn.LeakyReLU(slope)`. -/
def leaky_relu (slope : ℚ) (x : Tensor4) : Tensor4 :=
  { x with data := fun n c i j =>
      if 0 ≤ x.data n c i j then x.data n c i j else slope * x.data n c i j }

/-- `nn.MaxPool2d((2, 2))` (stride defaults to the kernel size): fails when a
spatial dimension is below the kernel, output size `(d - 2) / 2 + 1`. -/
def maxpool2 (x : Tensor4) : Option Tensor4 :=
  if 2 ≤ x.h ∧ 2 ≤ x.w then
    some { n := x.n, c := x.c, h := (x.h - 2) / 2 + 1, w := (x.w - 2) / 2 + 1,
           data := fun n c i j =>
             max (max (x.data n c (2 * i) (2 * j)) (x.data n c (2 * i) (2 * j + 1)))
                 (max (x.data n c (2 * i + 1) (2 * j)) (x.data n c (2 * i + 1) (2 * j + 1))) }
  else none

/-- Payload of `torch.cat([a, b], dim=1)`: the channels of `a` come first. -/
def catData (a b : Tensor4) : ℕ → ℕ → ℕ → ℕ → ℚ :=
  fun n c i j => if c < a.c then a.data n c i j else b.data n (c - a.c) i j

/-- `torch.cat([a, b], dim=1)`: all non-concatenated dimensions must agree. -/
def cat4 (a b : Tensor4) : Option Tensor4 :=
  if a.n = b.n ∧ a.h = b.h ∧ a.w = b.w then
    some { n := a.n, c := a.c + b.c, h := a.h, w := a.w, data := catData a b }
  else none

/-! ## The modules of `Model.py` (parameters and buffers) -/

/-- `double_conv_block`: two bias-free 3×3 convolutions, each followed by a
`BatchNorm2d`.  The channel counts are supplied where the block is applied,
mirroring the arguments of its constructor. -/
structure double_conv_block where
  w1 : ℕ → ℕ → ℕ → ℕ → ℚ
  bn1 : BNmod
  w2 : ℕ → ℕ → ℕ → ℕ → ℚ
  bn2 : BNmod

/-- `double_conv_block.forward`: conv(3×3, pad 1, no bias) → batch norm →
ReLU → conv(3×3, pad 1, no bias) → batch norm → ReLU, per `self.sequence`. -/
def double_conv_block.forward (sqrt : ℚ → ℚ) (inC outC : ℕ) (m : double_conv_block)
    (training : Bool) (x : Tensor4) : Option (Tensor4 × double_conv_block) :=
  (conv2d inC outC 3 1 1 none m.w1 x).bind fun a1 =>
  (batch_norm sqrt outC m.bn1 training a1).bind fun p1 =>
  (conv2d outC outC 3 1 1 none m.w2 (relu p1.1)).bind fun a2 =>
  (batch_norm sqrt outC m.bn2 training a2).bind fun p2 =>
  some (relu p2.1, { w1 := m.w1, bn1 := p1.2, w2 := m.w2, bn2 := p2.2 })

/-- `encoder_block`: a `double_conv_block` plus a `MaxPool2d((2, 2))`. -/
structure encoder_block where
  conv : double_conv_block

/-- `encoder_block.forward` returns `(out, maxpool(out))`. -/
def encoder_block.forward (sqrt : ℚ → ℚ) (inC outC : ℕ) (m : encoder_block)
    (training : Bool) (x : Tensor4) : Option ((Tensor4 × Tensor4) × encoder_block) :=
  (double_conv_block.forward sqrt inC outC m.conv training x).bind fun p =>
  (maxpool2 p.1).bind fun d =>
  some ((p.1, d), { conv := p.2 })

/-- `decoder_block`: `ConvTranspose2d(inC, outC, kernel_size=2, stride=2,
padding=0)` (bias present by default) plus `double_conv_block(2·outC, outC)`. -/
structure decoder_block where
  upW : ℕ → ℕ → ℕ → ℕ → ℚ
  upB : ℕ → ℚ
  conv : double_conv_block

/-- `decoder_block.forward`: upsample `x`, concatenate with `skip` along the
channel axis (upsampled first), then the double conv block. -/
def decoder_block.forward (sqrt : ℚ → ℚ) (inC outC : ℕ) (m : decoder_block)
    (training : Bool) (x skip : Tensor4) : Option (Tensor4 × decoder_block) :=
  (conv_transpose2d inC outC 2 2 0 (some m.upB) m.upW x).bind fun u =>
  (cat4 u skip).bind fun cc =>
  (double_conv_block.forward sqrt (2 * outC) outC m.conv training cc).bind fun p =>
  some (p.1, { upW := m.upW, upB := m.upB, conv := p.2 })

/-- The `Generator` module: four encoder blocks, a bottleneck, four decoder
blocks, and the final 1×1 output convolution `Conv2d(64, 2, kernel_size=1,
padding=0)` (bias present by default). -/
structure Generator where
  e1 : encoder_block
  e2 : encoder_block
  e3 : encoder_block
  e4 : encoder_block
  b : double_conv_block
  d1 : decoder_block
  d2 : decoder_block
  d3 : decoder_block
  d4 : decoder_block
  outputsW : ℕ → ℕ → ℕ → ℕ → ℚ
  outputsB : ℕ → ℚ

/-- `Generator.forward`, with the channel counts of `Generator.__init__`:
encoders 1→64→128→256→512, bottleneck 512→1024, decoders 1024→512→256→128→64
consuming the matching skip tensors, then the 1×1 projection 64→2. -/
def Generator.forward (sqrt : ℚ → ℚ) (m : Generator) (training : Bool)
    (x : Tensor4) : Option (Tensor4 × Generator) :=
  (encoder_block.forward sqrt 1 64 m.e1 training x).bind fun q1 =>
  (encoder_block.forward sqrt 64 128 m.e2 training q1.1.2).bind fun q2 =>
  (encoder_block.forward sqrt 128 256 m.e3 training q2.1.2).bind fun q3 =>
  (encoder_block.forward sqrt 256 512 m.e4 training q3.1.2).bind fun q4 =>
  (double_conv_block.forward sqrt 512 1024 m.b training q4.1.2).bind fun pb =>
  (decoder_block.forward sqrt 1024 512 m.d1 training pb.1 q4.1.1).bind fun r1 =>
  (decoder_block.forward sqrt 512 256 m.d2 training r1.1 q3.1.1).bind fun r2 =>
  (decoder_block.forward sqrt 256 128 m.d3 training r2.1 q2.1.1).bind fun r3 =>
  (decoder_block.forward sqrt 128 64 m.d4 training r3.1 q1.1.1).bind fun r4 =>
  (conv2d 64 2 1 1 0 (some m.outputsB) m.outputsW r4.1).bind fun out =>
  some (out, { e1 := q1.2, e2 := q2.2, e3 := q3.2, e4 := q4.2, b := pb.2,
               d1 := r1.2, d2 := r2.2, d3 := r3.2, d4 := r4.2,
               outputsW := m.outputsW, outputsB := m.outputsB })

/-- `conv_block` of the Critic: a bias-free 4×4 stride-2 padding-1
convolution, an `InstanceNorm2d` (constructed unconditionally), a
`LeakyReLU(0.2)`, and the stored `norm` flag. -/
structure conv_block where
  w : ℕ → ℕ → ℕ → ℕ → ℚ
  norm : Bool

/-- `conv_block.forward`: `lrelu(ins_norm(conv(x)))` when `self.norm`, else
`lrelu(conv(x))`. -/
def conv_block.forward (sqrt : ℚ → ℚ) (inC outC : ℕ) (m : conv_block)
    (x : Tensor4) : Option Tensor4 :=
  if m.norm then
    (conv2d inC outC 4 2 1 none m.w x).bind fun a =>
    (instance_norm sqrt a).bind fun b =>
    some (leaky_relu lreluSlope b)
  else
    (conv2d inC outC 4 2 1 none m.w x).bind fun a =>
    some (leaky_relu lreluSlope a)

/-- Follows the spec's words for the `normalize=False` contract: the
`conv_block` pipeline with the normalization step removed, i.e. the
leaky ReLU of the strided convolution alone.  Note that it does not even
receive the `sqrt` parameter used by the normalization layer. -/
def conv_block.forwardNoNorm (inC outC : ℕ) (m : conv_block) (x : Tensor4) :
    Option Tensor4 :=
  (conv2d inC outC 4 2 1 none m.w x).bind fun a =>
  some (leaky_relu lreluSlope a)

/-- The `Critic` module: five `conv_block`s and the final
`Conv2d(512, 1, kernel_size=4, bias=False)`. -/
structure Critic where
  block1 : conv_block
  block2 : conv_block
  block3 : conv_block
  block4 : conv_block
  block5 : conv_block
  outputW : ℕ → ℕ → ℕ → ℕ → ℚ

/-- `Critic.forward`, with the channel counts of `Critic.__init__`:
3→32→64→128→256→512, then the final 4×4 unpadded convolution 512→1.
No submodule of the Critic carries buffers, so the forward returns only the
output tensor. -/
def Critic.forward (sqrt : ℚ → ℚ) (m : Critic) (x : Tensor4) : Option Tensor4 :=
  (conv_block.forward sqrt 3 32 m.block1 x).bind fun a1 =>
  (conv_block.forward sqrt 32 64 m.block2 a1).bind fun a2 =>
  (conv_block.forward sqrt 64 128 m.block3 a2).bind fun a3 =>
  (conv_block.forward sqrt 128 256 m.block4 a3).bind fun a4 =>
  (conv_block.forward sqrt 256 512 m.block5 a4).bind fun a5 =>
  conv2d 512 1 4 1 0 none m.outputW a5

/-! ## Construction-level view: the layers registered by each `__init__`

`Critic.__init__` iterates `self.modules()` and re-initializes the weight of
every `nn.Conv2d` instance.  To settle the claims about construction
(initialization coverage and bias presence) we record, for each class, the
list of leaf layers it registers, in registration order, with the
hyperparameters passed to the layer constructors (PyTorch defaults made
explicit: `bias=True` unless the call says otherwise). -/

/-- A leaf layer descriptor as registered by the constructors in `Model.py`. -/
inductive Layer where
  | conv2dL (inC outC k stride padding : ℕ) (bias : Bool)
  | convT2dL (inC outC k stride padding : ℕ) (bias : Bool)
  | batchNorm2dL (features : ℕ)
  | instanceNorm2dL (features : ℕ)
  | reluL
  | leakyReluL (slope : ℚ)
  | maxPool2dL (k : ℕ)
  deriving DecidableEq

/-- The layers registered by `double_conv_block.__init__(in_channels,
out_channels)` via `self.sequence`. -/
def double_conv_block.layers (inC outC : ℕ) : List Layer :=
  [.conv2dL inC outC 3 1 1 false, .batchNorm2dL outC, .reluL,
   .conv2dL outC outC 3 1 1 false, .batchNorm2dL outC, .reluL]

/-- The layers registered by `encoder_block.__init__`. -/
def encoder_block.layers (inC outC : ℕ) : List Layer :=
  double_conv_block.layers inC outC ++ [.maxPool2dL 2]

/-- The layers registered by `decoder_block.__init__`. -/
def decoder_block.layers (inC outC : ℕ) : List Layer :=
  [.convT2dL inC outC 2 2 0 true] ++ double_conv_block.layers (2 * outC) outC

/-- The layers registered by `Generator.__init__`, in registration order. -/
def Generator.layers : List Layer :=
  encoder_block.layers 1 64 ++ encoder_block.layers 64 128 ++
  encoder_block.layers 128 256 ++ encoder_block.layers 256 512 ++
  double_conv_block.layers 512 1024 ++
  decoder_block.layers 1024 512 ++ decoder_block.layers 512 256 ++
  decoder_block.layers 256 128 ++ decoder_block.layers 128 64 ++
  [.conv2dL 64 2 1 1 0 true]

/-- The layers registered by `conv_block.__init__` (the `InstanceNorm2d` is
constructed whether or not `norm` is set). -/
def conv_block.layers (inC outC : ℕ) : List Layer :=
  [.conv2dL inC outC 4 2 1 false, .instanceNorm2dL outC, .leakyReluL lreluSlope]

/-- The layers registered by `Critic.__init__`, in registration order. -/
def Critic.layers : List Layer :=
  conv_block.layers 3 32 ++ conv_block.layers 32 64 ++ conv_block.layers 64 128 ++
  conv_block.layers 128 256 ++ conv_block.layers 256 512 ++
  [.conv2dL 512 1 4 1 0 false]

/-- `isinstance(m, nn.Conv2d)`: true exactly for `nn.Conv2d` layers
(`ConvTranspose2d` is not an instance of `Conv2d`). -/
def Layer.isConv2dInstance : Layer → Bool
  | .conv2dL _ _ _ _ _ _ => true
  | _ => false

/-- Any convolution-like layer (plain or transposed). -/
def Layer.isAnyConv : Layer → Bool
  | .conv2dL _ _ _ _ _ _ => true
  | .convT2dL _ _ _ _ _ _ => true
  | _ => false

/-- A weight-initialization action, as performed by `torch.nn.init`. -/
inductive WInit where
  | normal (mean std : ℚ)
  deriving DecidableEq

/-- The initialization loop at the end of `Critic.__init__`: for every module
reached by `self.modules()` that is an `nn.Conv2d`, apply
`init.normal_(m.weight, mean=0, std=0.02)` to its weight — each such weight
receives exactly one action, in traversal order. -/
def critic_weight_init_calls : List (Layer × WInit) :=
  (Critic.layers.filter Layer.isConv2dInstance).map (fun l => (l, WInit.normal 0 (1 / 50)))

/-! ## Concrete instances used by counterexamples and witnesses -/

/-- The all-zero weight function. -/
def zeroW : ℕ → ℕ → ℕ → ℕ → ℚ := fun _ _ _ _ => 0

/-- The all-zero bias function. -/
def zeroB : ℕ → ℚ := fun _ => 0

/-- A freshly constructed `nn.BatchNorm2d`: weight 1, bias 0, running mean 0,
running variance 1, `num_batches_tracked` 0. -/
def bn0 : BNmod := { gamma := fun _ => 1, beta := zeroB, rmean := zeroB, rvar := fun _ => 1, nbt := 0 }

/-- A concrete `double_conv_block` with zero conv weights and fresh norms. -/
def dcb0 : double_conv_block := { w1 := zeroW, bn1 := bn0, w2 := zeroW, bn2 := bn0 }

/-- A concrete `encoder_block`. -/
def enc0 : encoder_block := { conv := dcb0 }

/-- A concrete `decoder_block`. -/
def dec0 : decoder_block := { upW := zeroW, upB := zeroB, conv := dcb0 }

/-- A concrete `Generator` instance. -/
def gen0 : Generator :=
  { e1 := enc0, e2 := enc0, e3 := enc0, e4 := enc0, b := dcb0,
    d1 := dec0, d2 := dec0, d3 := dec0, d4 := dec0,
    outputsW := zeroW, outputsB := zeroB }

/-- A concrete `conv_block` with the given `norm` flag. -/
def cb0 (norm : Bool) : conv_block := { w := zeroW, norm := norm }

/-- A concrete `Critic` instance with the `norm` flags of `Critic.__init__`
(`block1` without normalization, the rest with it). -/
def critic0 : Critic :=
  { block1 := cb0 false, block2 := cb0 true, block3 := cb0 true,
    block4 := cb0 true, block5 := cb0 true, outputW := zeroW }

/-- The all-zero tensor of a given shape. -/
def zeros (n c h w : ℕ) : Tensor4 := { n := n, c := c, h := h, w := w, data := fun _ _ _ _ => 0 }

/-! ## Learned parameters of each module

The learned parameters (everything an optimizer would update: convolution
weights and biases, batch-norm affine weights) of a module, excluding the
batch-norm buffers (running statistics and batch counter). -/

/-- Learned parameters of a `BatchNorm2d`: its affine weight and bias. -/
def BNmod.params (m : BNmod) : (ℕ → ℚ) × (ℕ → ℚ) := (m.gamma, m.beta)

/-- Learned parameters of a `double_conv_block`. -/
def double_conv_block.params (m : double_conv_block) :
    (ℕ → ℕ → ℕ → ℕ → ℚ) × ((ℕ → ℚ) × (ℕ → ℚ)) × (ℕ → ℕ → ℕ → ℕ → ℚ) × ((ℕ → ℚ) × (ℕ → ℚ)) :=
  (m.w1, m.bn1.params, m.w2, m.bn2.params)

/-- Learned parameters of an `encoder_block`. -/
def encoder_block.params (m : encoder_block) := m.conv.params

/-- Learned parameters of a `decoder_block`. -/
def decoder_block.params (m : decoder_block) := (m.upW, m.upB, m.conv.params)

/-- Learned parameters of the whole `Generator`. -/
def Generator.params (m : Generator) :=
  (m.e1.params, m.e2.params, m.e3.params, m.e4.params, m.b.params,
   m.d1.params, m.d2.params, m.d3.params, m.d4.params, m.outputsW, m.outputsB)

/-- The result of an eval-mode forward of the concrete generator `gen0` on a
`(1, 1, 16, 16)` zero input (the forward succeeds, so the default is unused). -/
def res0 : Tensor4 × Generator :=
  (Generator.forward id gen0 false (zeros 1 1 16 16)).getD (zeros 0 0 0 0, gen0)

/-! ## Shape lemmas for the primitive layers -/

theorem relu_n (x : Tensor4) : (relu x).n = x.n := rfl

theorem relu_c (x : Tensor4) : (relu x).c = x.c := rfl

theorem relu_h (x : Tensor4) : (relu x).h = x.h := rfl

theorem relu_w (x : Tensor4) : (relu x).w = x.w := rfl

theorem conv2d_spec (inC outC k s p : ℕ) (bias : Option (ℕ → ℚ))
    (w : ℕ → ℕ → ℕ → ℕ → ℚ) (x : Tensor4)
    (hc : x.c = inC) (hh : k ≤ x.h + 2 * p) (hw : k ≤ x.w + 2 * p) :
    ∃ y, conv2d inC outC k s p bias w x = some y ∧
      y.n = x.n ∧ y.c = outC ∧
      y.h = (x.h + 2 * p - k) / s + 1 ∧ y.w = (x.w + 2 * p - k) / s + 1 := by
  rw [conv2d, if_pos ⟨hc, hh, hw⟩]
  exact ⟨_, rfl, rfl, rfl, rfl, rfl⟩

theorem conv3x3_spec (inC outC : ℕ) (w : ℕ → ℕ → ℕ → ℕ → ℚ) (x : Tensor4)
    (hc : x.c = inC) (hh : 1 ≤ x.h) (hw : 1 ≤ x.w) :
    ∃ y, conv2d inC outC 3 1 1 none w x = some y ∧
      y.n = x.n ∧ y.c = outC ∧ y.h = x.h ∧ y.w = x.w := by
  obtain ⟨y, hy, h1, h2, h3, h4⟩ :=
    conv2d_spec inC outC 3 1 1 none w x hc (by omega) (by omega)
  exact ⟨y, hy, h1, h2, by omega, by omega⟩

theorem conv4x4s2_spec (inC outC : ℕ) (w : ℕ → ℕ → ℕ → ℕ → ℚ) (x : Tensor4)
    (hc : x.c = inC) (hh : 2 ≤ x.h) (hw : 2 ≤ x.w) :
    ∃ y, conv2d inC outC 4 2 1 none w x = some y ∧
      y.n = x.n ∧ y.c = outC ∧ y.h = x.h / 2 ∧ y.w = x.w / 2 := by
  obtain ⟨y, hy, h1, h2, h3, h4⟩ :=
    conv2d_spec inC outC 4 2 1 none w x hc (by omega) (by omega)
  exact ⟨y, hy, h1, h2, by omega, by omega⟩

theorem conv1x1_spec (inC outC : ℕ) (bias : Option (ℕ → ℚ))
    (w : ℕ → ℕ → ℕ → ℕ → ℚ) (x : Tensor4)
    (hc : x.c = inC) (hh : 1 ≤ x.h) (hw : 1 ≤ x.w) :
    ∃ y, conv2d inC outC 1 1 0 bias w x = some y ∧
      y.n = x.n ∧ y.c = outC ∧ y.h = x.h ∧ y.w = x.w := by
  obtain ⟨y, hy, h1, h2, h3, h4⟩ :=
    conv2d_spec inC outC 1 1 0 bias w x hc (by omega) (by omega)
  exact ⟨y, hy, h1, h2, by omega, by omega⟩

theorem conv4x4valid_spec (inC outC : ℕ) (w : ℕ → ℕ → ℕ → ℕ → ℚ) (x : Tensor4)
    (hc : x.c = inC) (hh : 4 ≤ x.h) (hw : 4 ≤ x.w) :
    ∃ y, conv2d inC outC 4 1 0 none w x = some y ∧
      y.n = x.n ∧ y.c = outC ∧ y.h = x.h - 3 ∧ y.w = x.w - 3 := by
  obtain ⟨y, hy, h1, h2, h3, h4⟩ :=
    conv2d_spec inC outC 4 1 0 none w x hc (by omega) (by omega)
  exact ⟨y, hy, h1, h2, by omega, by omega⟩

theorem conv_transpose2x2_spec (inC outC : ℕ) (bias : Option (ℕ → ℚ))
    (w : ℕ → ℕ → ℕ → ℕ → ℚ) (x : Tensor4)
    (hc : x.c = inC) (hh : 1 ≤ x.h) (hw : 1 ≤ x.w) :
    ∃ y, conv_transpose2d inC outC 2 2 0 bias w x = some y ∧
      y.n = x.n ∧ y.c = outC ∧ y.h = 2 * x.h ∧ y.w = 2 * x.w := by
  rw [conv_transpose2d, if_pos ⟨hc, hh, hw⟩]
  exact ⟨_, rfl, rfl, rfl, by simp; omega, by simp; omega⟩

theorem maxpool2_spec (x : Tensor4) (hh : 2 ≤ x.h) (hw : 2 ≤ x.w) :
    ∃ y, maxpool2 x = some y ∧
      y.n = x.n ∧ y.c = x.c ∧ y.h = x.h / 2 ∧ y.w = x.w / 2 := by
  rw [maxpool2, if_pos ⟨hh, hw⟩]
  exact ⟨_, rfl, rfl, rfl, by simp; omega, by simp; omega⟩

theorem batch_norm_spec (sqrt : ℚ → ℚ) (features : ℕ) (m : BNmod) (training : Bool)
    (x : Tensor4) (hc : x.c = features)
    (ht : training = true → x.n * x.h * x.w ≠ 1) :
    ∃ p, batch_norm sqrt features m training x = some p ∧
      p.1.n = x.n ∧ p.1.c = x.c ∧ p.1.h = x.h ∧ p.1.w = x.w := by
  rw [batch_norm, if_pos hc]
  cases training with
  | false => exact ⟨_, rfl, rfl, rfl, rfl, rfl⟩
  | true =>
    rw [if_neg (ht rfl)]
    exact ⟨_, rfl, rfl, rfl, rfl, rfl⟩

theorem instance_norm_spec (sqrt : ℚ → ℚ) (x : Tensor4) (hhw : x.h * x.w ≠ 1) :
    ∃ y, instance_norm sqrt x = some y ∧
      y.n = x.n ∧ y.c = x.c ∧ y.h = x.h ∧ y.w = x.w := by
  rw [instance_norm, if_neg hhw]
  exact ⟨_, rfl, rfl, rfl, rfl, rfl⟩

theorem cat4_spec (a b : Tensor4) (hn : a.n = b.n) (hh : a.h = b.h) (hw : a.w = b.w) :
    cat4 a b = some { n := a.n, c := a.c + b.c, h := a.h, w := a.w, data := catData a b } := by
  rw [cat4, if_pos ⟨hn, hh, hw⟩]

/-- A product of naturals with one factor at least 2 is never 1. -/
theorem mul_mul_ne_one (N h w : ℕ) (hh : 2 ≤ h) : N * h * w ≠ 1 := by
  intro habs
  have h1 : N * h = 1 := Nat.eq_one_of_mul_eq_one_right habs
  have h2 : h = 1 := Nat.eq_one_of_mul_eq_one_left h1
  omega

/-- A product of naturals whose left factor is at least 2 is never 1. -/
theorem mul_ne_one_left (a b : ℕ) (ha : 2 ≤ a) : a * b ≠ 1 := by
  intro habs
  have h1 : a = 1 := Nat.eq_one_of_mul_eq_one_right habs
  omega

theorem leaky_relu_n (s : ℚ) (x : Tensor4) : (leaky_relu s x).n = x.n := rfl

theorem leaky_relu_c (s : ℚ) (x : Tensor4) : (leaky_relu s x).c = x.c := rfl

theorem leaky_relu_h (s : ℚ) (x : Tensor4) : (leaky_relu s x).h = x.h := rfl

theorem leaky_relu_w (s : ℚ) (x : Tensor4) : (leaky_relu s x).w = x.w := rfl

/-! ## Module-level shape lemmas -/

theorem dcb_spec (sqrt : ℚ → ℚ) (inC outC : ℕ) (m : double_conv_block) (training : Bool)
    (x : Tensor4) (hc : x.c = inC) (hh : 1 ≤ x.h) (hw : 1 ≤ x.w)
    (ht : training = true → x.n * x.h * x.w ≠ 1) :
    ∃ p, double_conv_block.forward sqrt inC outC m training x = some p ∧
      p.1.n = x.n ∧ p.1.c = outC ∧ p.1.h = x.h ∧ p.1.w = x.w := by
  obtain ⟨a1, ha1, a1n, a1c, a1h, a1w⟩ := conv3x3_spec inC outC m.w1 x hc hh hw
  obtain ⟨p1, hp1, p1n, p1c, p1h, p1w⟩ :=
    batch_norm_spec sqrt outC m.bn1 training a1 a1c
      (by intro h; rw [a1n, a1h, a1w]; exact ht h)
  obtain ⟨a2, ha2, a2n, a2c, a2h, a2w⟩ :=
    conv3x3_spec outC outC m.w2 (relu p1.1)
      (by rw [relu_c, p1c, a1c]) (by rw [relu_h, p1h, a1h]; exact hh)
      (by rw [relu_w, p1w, a1w]; exact hw)
  obtain ⟨p2, hp2, p2n, p2c, p2h, p2w⟩ :=
    batch_norm_spec sqrt outC m.bn2 training a2 (by rw [a2c])
      (by intro h
          rw [a2n, relu_n, p1n, a1n, a2h, relu_h, p1h, a1h, a2w, relu_w, p1w, a1w]
          exact ht h)
  refine ⟨(relu p2.1, { w1 := m.w1, bn1 := p1.2, w2 := m.w2, bn2 := p2.2 }), ?_, ?_, ?_, ?_, ?_⟩
  · rw [double_conv_block.forward, ha1]
    simp only [Option.some_bind]
    rw [hp1]
    simp only [Option.some_bind]
    rw [ha2]
    simp only [Option.some_bind]
    rw [hp2]
    simp only [Option.some_bind]
  · rw [relu_n, p2n, a2n, relu_n, p1n, a1n]
  · rw [relu_c, p2c, a2c]
  · rw [relu_h, p2h, a2h, relu_h, p1h, a1h]
  · rw [relu_w, p2w, a2w, relu_w, p1w, a1w]

theorem enc_spec (sqrt : ℚ → ℚ) (inC outC : ℕ) (m : encoder_block) (training : Bool)
    (x : Tensor4) (hc : x.c = inC) (hh : 2 ≤ x.h) (hw : 2 ≤ x.w)
    (ht : training = true → x.n * x.h * x.w ≠ 1) :
    ∃ q, encoder_block.forward sqrt inC outC m training x = some q ∧
      q.1.1.n = x.n ∧ q.1.1.c = outC ∧ q.1.1.h = x.h ∧ q.1.1.w = x.w ∧
      q.1.2.n = x.n ∧ q.1.2.c = outC ∧ q.1.2.h = x.h / 2 ∧ q.1.2.w = x.w / 2 := by
  obtain ⟨p, hp, pn, pc, ph, pw⟩ :=
    dcb_spec sqrt inC outC m.conv training x hc (by omega) (by omega) ht
  obtain ⟨d, hd, dn, dc, dh, dw⟩ :=
    maxpool2_spec p.1 (by rw [ph]; exact hh) (by rw [pw]; exact hw)
  refine ⟨((p.1, d), { conv := p.2 }), ?_, pn, pc, ph, pw, ?_, ?_, ?_, ?_⟩
  · rw [encoder_block.forward, hp]
    simp only [Option.some_bind]
    rw [hd]
    simp only [Option.some_bind]
  · rw [dn, pn]
  · rw [dc, pc]
  · rw [dh, ph]
  · rw [dw, pw]

theorem decoder_chain_spec (sqrt : ℚ → ℚ) (inC outC : ℕ) (m : decoder_block)
    (training : Bool) (x skip : Tensor4)
    (hc : x.c = inC) (hh : 1 ≤ x.h) (hw : 1 ≤ x.w)
    (hsn : skip.n = x.n) (hsc : skip.c = outC)
    (hsh : skip.h = 2 * x.h) (hsw : skip.w = 2 * x.w) :
    ∃ u cc q r,
      conv_transpose2d inC outC 2 2 0 (some m.upB) m.upW x = some u ∧
      u.n = x.n ∧ u.c = outC ∧ u.h = 2 * x.h ∧ u.w = 2 * x.w ∧
      cat4 u skip = some cc ∧
      cc.n = x.n ∧ cc.c = 2 * outC ∧ cc.h = 2 * x.h ∧ cc.w = 2 * x.w ∧
      cc.data = catData u skip ∧
      double_conv_block.forward sqrt (2 * outC) outC m.conv training cc = some q ∧
      decoder_block.forward sqrt inC outC m training x skip = some r ∧
      r.1 = q.1 ∧ r.2 = { upW := m.upW, upB := m.upB, conv := q.2 } ∧
      r.1.n = x.n ∧ r.1.c = outC ∧ r.1.h = 2 * x.h ∧ r.1.w = 2 * x.w := by
  obtain ⟨u, hu, un, uc, uh, uw⟩ :=
    conv_transpose2x2_spec inC outC (some m.upB) m.upW x hc hh hw
  have hcat := cat4_spec u skip (by rw [un, hsn]) (by rw [uh, hsh]) (by rw [uw, hsw])
  set cc : Tensor4 :=
    { n := u.n, c := u.c + skip.c, h := u.h, w := u.w, data := catData u skip } with hccdef
  have ccn : cc.n = x.n := un
  have ccc : cc.c = 2 * outC := by show u.c + skip.c = 2 * outC; rw [uc, hsc]; omega
  have cch : cc.h = 2 * x.h := uh
  have ccw : cc.w = 2 * x.w := uw
  obtain ⟨q, hq, qn, qc, qh, qw⟩ :=
    dcb_spec sqrt (2 * outC) outC m.conv training cc ccc (by omega) (by omega)
      (by intro _; rw [ccn, cch, ccw]; exact mul_mul_ne_one _ _ _ (by omega))
  refine ⟨u, cc, q, (q.1, { upW := m.upW, upB := m.upB, conv := q.2 }),
    hu, un, uc, uh, uw, hcat, ccn, ccc, cch, ccw, rfl, hq, ?_, rfl, rfl, ?_, ?_, ?_, ?_⟩
  · rw [decoder_block.forward, hu]
    simp only [Option.some_bind]
    rw [hcat]
    simp only [Option.some_bind]
    rw [hq]
    simp only [Option.some_bind]
  · show q.1.n = x.n
    rw [qn, ccn]
  · show q.1.c = outC
    rw [qc]
  · show q.1.h = 2 * x.h
    rw [qh, cch]
  · show q.1.w = 2 * x.w
    rw [qw, ccw]

theorem conv_block_spec (sqrt : ℚ → ℚ) (inC outC : ℕ) (m : conv_block) (x : Tensor4)
    (hc : x.c = inC) (hh : 2 ≤ x.h) (hw : 2 ≤ x.w)
    (hn : m.norm = true → x.h / 2 * (x.w / 2) ≠ 1) :
    ∃ y, conv_block.forward sqrt inC outC m x = some y ∧
      y.n = x.n ∧ y.c = outC ∧ y.h = x.h / 2 ∧ y.w = x.w / 2 := by
  obtain ⟨a, hconv, an, ac, ah, aw⟩ := conv4x4s2_spec inC outC m.w x hc hh hw
  cases hm : m.norm with
  | false =>
    refine ⟨leaky_relu lreluSlope a, ?_, an, ac, ah, aw⟩
    rw [conv_block.forward, hm]
    simp only [Bool.false_eq_true, if_false]
    rw [hconv]
    simp only [Option.some_bind]
  | true =>
    obtain ⟨bnorm, hbn, bn, bc, bh, bw⟩ :=
      instance_norm_spec sqrt a (by rw [ah, aw]; exact hn hm)
    refine ⟨leaky_relu lreluSlope bnorm, ?_, ?_, ?_, ?_, ?_⟩
    · rw [conv_block.forward, hm]
      simp only [if_true]
      rw [hconv]
      simp only [Option.some_bind]
      rw [hbn]
      simp only [Option.some_bind]
    · rw [leaky_relu_n, bn, an]
    · rw [leaky_relu_c, bc, ac]
    · rw [leaky_relu_h, bh, ah]
    · rw [leaky_relu_w, bw, aw]

theorem critic_spec (sqrt : ℚ → ℚ) (m : Critic) (x : Tensor4)
    (hc : x.c = 3) (hH : 128 ≤ x.h) (hW : 128 ≤ x.w) :
    ∃ y, Critic.forward sqrt m x = some y ∧
      y.n = x.n ∧ y.c = 1 ∧ y.h = x.h / 32 - 3 ∧ y.w = x.w / 32 - 3 := by
  obtain ⟨a1, h1, n1, c1, hh1, ww1⟩ :=
    conv_block_spec sqrt 3 32 m.block1 x hc (by omega) (by omega)
      (by intro _; exact mul_ne_one_left _ _ (by omega))
  obtain ⟨a2, h2, n2, c2, hh2, ww2⟩ :=
    conv_block_spec sqrt 32 64 m.block2 a1 c1 (by omega) (by omega)
      (by intro _; rw [hh1, ww1]; exact mul_ne_one_left _ _ (by omega))
  obtain ⟨a3, h3, n3, c3, hh3, ww3⟩ :=
    conv_block_spec sqrt 64 128 m.block3 a2 c2
      (by rw [hh2, hh1]; omega) (by rw [ww2, ww1]; omega)
      (by intro _; rw [hh2, hh1, ww2, ww1]; exact mul_ne_one_left _ _ (by omega))
  obtain ⟨a4, h4, n4, c4, hh4, ww4⟩ :=
    conv_block_spec sqrt 128 256 m.block4 a3 c3
      (by rw [hh3, hh2, hh1]; omega) (by rw [ww3, ww2, ww1]; omega)
      (by intro _; rw [hh3, hh2, hh1, ww3, ww2, ww1]; exact mul_ne_one_left _ _ (by omega))
  obtain ⟨a5, h5, n5, c5, hh5, ww5⟩ :=
    conv_block_spec sqrt 256 512 m.block5 a4 c4
      (by rw [hh4, hh3, hh2, hh1]; omega) (by rw [ww4, ww3, ww2, ww1]; omega)
      (by intro _
          rw [hh4, hh3, hh2, hh1, ww4, ww3, ww2, ww1]
          exact mul_ne_one_left _ _ (by omega))
  obtain ⟨y, hy, yn, yc, yh, yw⟩ :=
    conv4x4valid_spec 512 1 m.outputW a5 c5
      (by rw [hh5, hh4, hh3, hh2, hh1]; omega) (by rw [ww5, ww4, ww3, ww2, ww1]; omega)
  refine ⟨y, ?_, ?_, yc, ?_, ?_⟩
  · rw [Critic.forward, h1]
    simp only [Option.some_bind]
    rw [h2]
    simp only [Option.some_bind]
    rw [h3]
    simp only [Option.some_bind]
    rw [h4]
    simp only [Option.some_bind]
    rw [h5]
    simp only [Option.some_bind]
    exact hy
  · rw [yn, n5, n4, n3, n2, n1]
  · rw [yh, hh5, hh4, hh3, hh2, hh1]; omega
  · rw [yw, ww5, ww4, ww3, ww2, ww1]; omega

theorem generator_spec (sqrt : ℚ → ℚ) (m : Generator) (training : Bool) (x : Tensor4)
    (a b : ℕ) (ha : 1 ≤ a) (hb : 1 ≤ b)
    (hc : x.c = 1) (hh : x.h = 16 * a) (hw : x.w = 16 * b)
    (ht : training = true → x.n * a * b ≠ 1) :
    ∃ p, Generator.forward sqrt m training x = some p ∧
      p.1.n = x.n ∧ p.1.c = 2 ∧ p.1.h = x.h ∧ p.1.w = x.w := by
  obtain ⟨q1, hq1, s1n, s1c, s1h, s1w, p1n, p1c, p1h, p1w⟩ :=
    enc_spec sqrt 1 64 m.e1 training x hc (by omega) (by omega)
      (by intro _; rw [hh, hw]; exact mul_mul_ne_one _ _ _ (by omega))
  have p1h' : q1.1.2.h = 8 * a := by rw [p1h, hh]; omega
  have p1w' : q1.1.2.w = 8 * b := by rw [p1w, hw]; omega
  have s1h' : q1.1.1.h = 16 * a := by rw [s1h, hh]
  have s1w' : q1.1.1.w = 16 * b := by rw [s1w, hw]
  obtain ⟨q2, hq2, s2n, s2c, s2h, s2w, p2n, p2c, p2h, p2w⟩ :=
    enc_spec sqrt 64 128 m.e2 training q1.1.2 p1c (by omega) (by omega)
      (by intro _; rw [p1n, p1h', p1w']; exact mul_mul_ne_one _ _ _ (by omega))
  have p2n' : q2.1.2.n = x.n := by rw [p2n, p1n]
  have p2h' : q2.1.2.h = 4 * a := by rw [p2h, p1h']; omega
  have p2w' : q2.1.2.w = 4 * b := by rw [p2w, p1w']; omega
  have s2n' : q2.1.1.n = x.n := by rw [s2n, p1n]
  have s2h' : q2.1.1.h = 8 * a := by rw [s2h, p1h']
  have s2w' : q2.1.1.w = 8 * b := by rw [s2w, p1w']
  obtain ⟨q3, hq3, s3n, s3c, s3h, s3w, p3n, p3c, p3h, p3w⟩ :=
    enc_spec sqrt 128 256 m.e3 training q2.1.2 p2c (by omega) (by omega)
      (by intro _; rw [p2n', p2h', p2w']; exact mul_mul_ne_one _ _ _ (by omega))
  have p3n' : q3.1.2.n = x.n := by rw [p3n, p2n']
  have p3h' : q3.1.2.h = 2 * a := by rw [p3h, p2h']; omega
  have p3w' : q3.1.2.w = 2 * b := by rw [p3w, p2w']; omega
  have s3n' : q3.1.1.n = x.n := by rw [s3n, p2n']
  have s3h' : q3.1.1.h = 4 * a := by rw [s3h, p2h']
  have s3w' : q3.1.1.w = 4 * b := by rw [s3w, p2w']
  obtain ⟨q4, hq4, s4n, s4c, s4h, s4w, p4n, p4c, p4h, p4w⟩ :=
    enc_spec sqrt 256 512 m.e4 training q3.1.2 p3c (by omega) (by omega)
      (by intro _; rw [p3n', p3h', p3w']; exact mul_mul_ne_one _ _ _ (by omega))
  have p4n' : q4.1.2.n = x.n := by rw [p4n, p3n']
  have p4h' : q4.1.2.h = a := by rw [p4h, p3h']; omega
  have p4w' : q4.1.2.w = b := by rw [p4w, p3w']; omega
  have s4n' : q4.1.1.n = x.n := by rw [s4n, p3n']
  have s4h' : q4.1.1.h = 2 * a := by rw [s4h, p3h']
  have s4w' : q4.1.1.w = 2 * b := by rw [s4w, p3w']
  obtain ⟨pb, hpb, pbn, pbc, pbh, pbw⟩ :=
    dcb_spec sqrt 512 1024 m.b training q4.1.2 p4c (by omega) (by omega)
      (by intro hT; rw [p4n', p4h', p4w']; exact ht hT)
  have pbn' : pb.1.n = x.n := by rw [pbn, p4n']
  have pbh' : pb.1.h = a := by rw [pbh, p4h']
  have pbw' : pb.1.w = b := by rw [pbw, p4w']
  obtain ⟨u1, cc1, qd1, r1, hu1, hu1n, hu1c, hu1h, hu1w, hcat1, hc1n, hc1c, hc1h, hc1w,
      hc1d, hdcb1, hd1, hr1q1, hr1q2, r1n, r1c, r1h, r1w⟩ :=
    decoder_chain_spec sqrt 1024 512 m.d1 training pb.1 q4.1.1 pbc (by omega) (by omega)
      (by rw [s4n', pbn']) s4c (by rw [s4h', pbh']) (by rw [s4w', pbw'])
  have r1n' : r1.1.n = x.n := by rw [r1n, pbn']
  have r1h' : r1.1.h = 2 * a := by rw [r1h, pbh']
  have r1w' : r1.1.w = 2 * b := by rw [r1w, pbw']
  obtain ⟨u2, cc2, qd2, r2, hu2, hu2n, hu2c, hu2h, hu2w, hcat2, hc2n, hc2c, hc2h, hc2w,
      hc2d, hdcb2, hd2, hr2q1, hr2q2, r2n, r2c, r2h, r2w⟩ :=
    decoder_chain_spec sqrt 512 256 m.d2 training r1.1 q3.1.1 r1c (by omega) (by omega)
      (by rw [s3n', r1n']) s3c (by rw [s3h', r1h']; omega) (by rw [s3w', r1w']; omega)
  have r2n' : r2.1.n = x.n := by rw [r2n, r1n']
  have r2h' : r2.1.h = 4 * a := by rw [r2h, r1h']; omega
  have r2w' : r2.1.w = 4 * b := by rw [r2w, r1w']; omega
  obtain ⟨u3, cc3, qd3, r3, hu3, hu3n, hu3c, hu3h, hu3w, hcat3, hc3n, hc3c, hc3h, hc3w,
      hc3d, hdcb3, hd3, hr3q1, hr3q2, r3n, r3c, r3h, r3w⟩ :=
    decoder_chain_spec sqrt 256 128 m.d3 training r2.1 q2.1.1 r2c (by omega) (by omega)
      (by rw [s2n', r2n']) s2c (by rw [s2h', r2h']; omega) (by rw [s2w', r2w']; omega)
  have r3n' : r3.1.n = x.n := by rw [r3n, r2n']
  have r3h' : r3.1.h = 8 * a := by rw [r3h, r2h']; omega
  have r3w' : r3.1.w = 8 * b := by rw [r3w, r2w']; omega
  obtain ⟨u4, cc4, qd4, r4, hu4, hu4n, hu4c, hu4h, hu4w, hcat4, hc4n, hc4c, hc4h, hc4w,
      hc4d, hdcb4, hd4, hr4q1, hr4q2, r4n, r4c, r4h, r4w⟩ :=
    decoder_chain_spec sqrt 128 64 m.d4 training r3.1 q1.1.1 r3c (by omega) (by omega)
      (by rw [s1n, r3n']) s1c (by rw [s1h', r3h']; omega) (by rw [s1w', r3w']; omega)
  have r4n' : r4.1.n = x.n := by rw [r4n, r3n']
  have r4h' : r4.1.h = 16 * a := by rw [r4h, r3h']; omega
  have r4w' : r4.1.w = 16 * b := by rw [r4w, r3w']; omega
  obtain ⟨out, hout, outn, outc, outh, outw⟩ :=
    conv1x1_spec 64 2 (some m.outputsB) m.outputsW r4.1 r4c (by omega) (by omega)
  refine ⟨(out, { e1 := q1.2, e2 := q2.2, e3 := q3.2, e4 := q4.2, b := pb.2,
                  d1 := r1.2, d2 := r2.2, d3 := r3.2, d4 := r4.2,
                  outputsW := m.outputsW, outputsB := m.outputsB }), ?_, ?_, ?_, ?_, ?_⟩
  · rw [Generator.forward, hq1]
    simp only [Option.some_bind]
    rw [hq2]
    simp only [Option.some_bind]
    rw [hq3]
    simp only [Option.some_bind]
    rw [hq4]
    simp only [Option.some_bind]
    rw [hpb]
    simp only [Option.some_bind]
    rw [hd1]
    simp only [Option.some_bind]
    rw [hd2]
    simp only [Option.some_bind]
    rw [hd3]
    simp only [Option.some_bind]
    rw [hd4]
    simp only [Option.some_bind]
    rw [hout]
    simp only [Option.some_bind]
  · show out.n = x.n
    rw [outn, r4n']
  · show out.c = 2
    rw [outc]
  · show out.h = x.h
    rw [outh, r4h', hh]
  · show out.w = x.w
    rw [outw, r4w', hw]

/-! ## State lemmas: what a forward pass does to the module itself -/

theorem batch_norm_state (sqrt : ℚ → ℚ) (features : ℕ) (m : BNmod) (training : Bool)
    (x : Tensor4) (p : Tensor4 × BNmod)
    (h : batch_norm sqrt features m training x = some p) :
    p.2.params = m.params ∧ (training = false → p.2 = m) := by
  rw [batch_norm] at h
  split at h
  · split at h
    next htr =>
      split at h
      · simp at h
      · obtain rfl := Option.some.inj h
        refine ⟨rfl, fun hf => ?_⟩
        rw [hf] at htr
        simp at htr
    next htr =>
      obtain rfl := Option.some.inj h
      exact ⟨rfl, fun _ => rfl⟩
  · simp at h

theorem dcb_state (sqrt : ℚ → ℚ) (inC outC : ℕ) (m : double_conv_block) (training : Bool)
    (x : Tensor4) (p : Tensor4 × double_conv_block)
    (h : double_conv_block.forward sqrt inC outC m training x = some p) :
    p.2.params = m.params ∧ (training = false → p.2 = m) := by
  rw [double_conv_block.forward] at h
  simp only [Option.bind_eq_some, Option.some.injEq] at h
  obtain ⟨a1, ha1, p1, hp1, a2, ha2, p2, hp2, rfl⟩ := h
  obtain ⟨hbn1p, hbn1e⟩ := batch_norm_state sqrt outC m.bn1 training a1 p1 hp1
  obtain ⟨hbn2p, hbn2e⟩ := batch_norm_state sqrt outC m.bn2 training a2 p2 hp2
  constructor
  · simp only [double_conv_block.params]
    rw [hbn1p, hbn2p]
  · intro hf
    show ({ w1 := m.w1, bn1 := p1.2, w2 := m.w2, bn2 := p2.2 } : double_conv_block) = m
    rw [hbn1e hf, hbn2e hf]

theorem enc_state (sqrt : ℚ → ℚ) (inC outC : ℕ) (m : encoder_block) (training : Bool)
    (x : Tensor4) (q : (Tensor4 × Tensor4) × encoder_block)
    (h : encoder_block.forward sqrt inC outC m training x = some q) :
    q.2.params = m.params ∧ (training = false → q.2 = m) := by
  rw [encoder_block.forward] at h
  simp only [Option.bind_eq_some, Option.some.injEq] at h
  obtain ⟨p, hp, d, hd, rfl⟩ := h
  obtain ⟨h1, h2⟩ := dcb_state sqrt inC outC m.conv training x p hp
  constructor
  · simp only [encoder_block.params]
    exact h1
  · intro hf
    show ({ conv := p.2 } : encoder_block) = m
    rw [h2 hf]

theorem dec_state (sqrt : ℚ → ℚ) (inC outC : ℕ) (m : decoder_block) (training : Bool)
    (x skip : Tensor4) (r : Tensor4 × decoder_block)
    (h : decoder_block.forward sqrt inC outC m training x skip = some r) :
    r.2.params = m.params ∧ (training = false → r.2 = m) := by
  rw [decoder_block.forward] at h
  simp only [Option.bind_eq_some, Option.some.injEq] at h
  obtain ⟨u, hu, cc, hcat, p, hp, rfl⟩ := h
  obtain ⟨h1, h2⟩ := dcb_state sqrt (2 * outC) outC m.conv training cc p hp
  constructor
  · simp only [decoder_block.params]
    rw [h1]
  · intro hf
    show ({ upW := m.upW, upB := m.upB, conv := p.2 } : decoder_block) = m
    rw [h2 hf]

/-! ## Claims -/

/-- Claim C1, counterexample: the claim as stated is false.  In training mode
(the state of a freshly constructed module) with batch size 1 and a 16×16
input — both allowed by the claim — the bottleneck `BatchNorm2d` sees a single
value per channel and the forward raises instead of producing an output. -/
theorem c1_counterexample :
    Generator.forward id gen0 true (zeros 1 1 16 16) = none := rfl

/-- Claim C1, amended: for every batch size N ≥ 1 and H, W positive multiples
of 16, `Generator.forward` on a `(N, 1, H, W)` input produces an output of
shape `(N, 2, H, W)` and raises no exception — unless the module is in
training mode and `N · (H/16) · (W/16) = 1` (that is, N = 1 and H = W = 16),
where the bottleneck `BatchNorm2d` rejects its single value per channel. -/
theorem c1_generator_shape (sqrt : ℚ → ℚ) (m : Generator) (training : Bool)
    (x : Tensor4) (a b : ℕ) (hN : 1 ≤ x.n) (ha : 1 ≤ a) (hb : 1 ≤ b)
    (hc : x.c = 1) (hh : x.h = 16 * a) (hw : x.w = 16 * b)
    (ht : training = true → x.n * a * b ≠ 1) :
    ∃ p, Generator.forward sqrt m training x = some p ∧
      p.1.n = x.n ∧ p.1.c = 2 ∧ p.1.h = x.h ∧ p.1.w = x.w :=
  generator_spec sqrt m training x a b ha hb hc hh hw ht

/-- Claim C1, witness: the amended claim at the concrete input
`(1, 1, 16, 16)` with the module in eval mode. -/
theorem c1_witness :
    ∃ p, Generator.forward id gen0 false (zeros 1 1 16 16) = some p ∧
      p.1.n = 1 ∧ p.1.c = 2 ∧ p.1.h = 16 ∧ p.1.w = 16 :=
  c1_generator_shape id gen0 false (zeros 1 1 16 16) 1 1 (le_refl 1) (le_refl 1) (le_refl 1)
    rfl rfl rfl (fun hf => absurd hf (by decide))

/-- Claim C2, counterexample: the claim as stated is false.  On a
`(1, 3, 64, 64)` input — allowed by the claim's bound H, W ≥ 64 — the five
stride-2 blocks reduce the spatial size to 2×2, on which the final unpadded
4×4 convolution raises (kernel larger than the input), so the forward
produces no output. -/
theorem c2_counterexample :
    Critic.forward id critic0 (zeros 1 3 64 64) = none := rfl

/-- Claim C2, amended: for every H, W ≥ 128 (so that five halvings leave at
least the 4×4 needed by the final valid convolution) and every batch size,
`Critic.forward` on a `(N, 3, H, W)` input succeeds and produces a
4-dimensional output with a single channel (its spatial size being
`H/32 - 3` by `W/32 - 3`). -/
theorem c2_critic_shape (sqrt : ℚ → ℚ) (m : Critic) (x : Tensor4)
    (hc : x.c = 3) (hH : 128 ≤ x.h) (hW : 128 ≤ x.w) :
    ∃ y, Critic.forward sqrt m x = some y ∧
      y.n = x.n ∧ y.c = 1 ∧ y.h = x.h / 32 - 3 ∧ y.w = x.w / 32 - 3 :=
  critic_spec sqrt m x hc hH hW

/-- Claim C2, witness: the amended claim at the concrete input
`(1, 3, 128, 128)`. -/
theorem c2_witness :
    ∃ y, Critic.forward id critic0 (zeros 1 3 128 128) = some y ∧
      y.n = 1 ∧ y.c = 1 ∧ y.h = 1 ∧ y.w = 1 :=
  c2_critic_shape id critic0 (zeros 1 3 128 128) rfl (le_refl 128) (le_refl 128)

/-- Claim C3, counterexample: on a `(1, 3, 256, 256)` input the Critic's
output shape is not `(1, 1, 30, 30)` (it is `(1, 1, 5, 5)`: five halvings
take 256 to 8, and the final valid 4×4 convolution takes 8 to 5). -/
theorem c3_counterexample :
    (Critic.forward id critic0 (zeros 1 3 256 256)).map (fun y => (y.n, y.c, y.h, y.w)) ≠
      some (1, 1, 30, 30) := by decide

/-- Claim C3, amended: `Critic.forward` on a `(1, 3, 256, 256)` input
produces an output of shape `(1, 1, 5, 5)`. -/
theorem c3_critic_256 (sqrt : ℚ → ℚ) (m : Critic) (x : Tensor4)
    (hn : x.n = 1) (hc : x.c = 3) (hh : x.h = 256) (hw : x.w = 256) :
    ∃ y, Critic.forward sqrt m x = some y ∧ y.n = 1 ∧ y.c = 1 ∧ y.h = 5 ∧ y.w = 5 := by
  obtain ⟨y, hy, yn, yc, yh, yw⟩ := critic_spec sqrt m x hc (by omega) (by omega)
  refine ⟨y, hy, by rw [yn, hn], yc, ?_, ?_⟩
  · rw [yh, hh]
  · rw [yw, hw]

/-- Claim C3, witness: the amended claim at a concrete module and input. -/
theorem c3_witness :
    ∃ y, Critic.forward id critic0 (zeros 1 3 256 256) = some y ∧
      y.n = 1 ∧ y.c = 1 ∧ y.h = 5 ∧ y.w = 5 :=
  c3_critic_256 id critic0 (zeros 1 3 256 256) rfl rfl rfl rfl

/-- Claim C4: the initialization loop of `Critic.__init__` reaches every
convolutional layer of the Critic — the five convolutions nested inside the
`conv_block`s as well as the final output convolution — and assigns each of
their weight tensors exactly one draw action from the normal distribution
with mean 0 and standard deviation 0.02 (and nothing else). -/
theorem c4_critic_conv_weight_norm_init :
    critic_weight_init_calls =
      [(.conv2dL 3 32 4 2 1 false, .normal 0 (1 / 50)),
       (.conv2dL 32 64 4 2 1 false, .normal 0 (1 / 50)),
       (.conv2dL 64 128 4 2 1 false, .normal 0 (1 / 50)),
       (.conv2dL 128 256 4 2 1 false, .normal 0 (1 / 50)),
       (.conv2dL 256 512 4 2 1 false, .normal 0 (1 / 50)),
       (.conv2dL 512 1 4 1 0 false, .normal 0 (1 / 50))] ∧
    (Critic.layers.filter Layer.isConv2dInstance).Nodup :=
  ⟨rfl, by decide⟩

/-- Claim C5, counterexample: the claim as stated is false.  A training-mode
forward of the Generator mutates model state: here the first batch-norm
layer's `num_batches_tracked` buffer changes from 0 to 1 (its running
statistics are updated alongside). -/
theorem c5_counterexample :
    (Generator.forward id gen0 true (zeros 2 1 16 16)).map
      (fun p => (p.2.e1.conv.bn1.nbt, gen0.e1.conv.bn1.nbt)) = some (1, 0) := rfl

/-- Claim C5, amended: a forward pass of the Generator never mutates any
learned parameter (in either mode), and in eval mode it leaves the module —
parameters and all buffers — entirely unchanged; only the training-mode
batch-norm running statistics and batch counters are updated.  (The Critic
holds no buffers at all, so its forward has no state to mutate.) -/
theorem c5_generator_forward_state (sqrt : ℚ → ℚ) (m : Generator) (training : Bool)
    (x : Tensor4) (p : Tensor4 × Generator)
    (h : Generator.forward sqrt m training x = some p) :
    Generator.params p.2 = Generator.params m ∧ (training = false → p.2 = m) := by
  rw [Generator.forward] at h
  simp only [Option.bind_eq_some, Option.some.injEq] at h
  obtain ⟨q1, hq1, q2, hq2, q3, hq3, q4, hq4, pb, hpb, r1, hr1, r2, hr2, r3, hr3,
    r4, hr4, out, hout, rfl⟩ := h
  obtain ⟨e1p, e1e⟩ := enc_state sqrt 1 64 m.e1 training _ q1 hq1
  obtain ⟨e2p, e2e⟩ := enc_state sqrt 64 128 m.e2 training _ q2 hq2
  obtain ⟨e3p, e3e⟩ := enc_state sqrt 128 256 m.e3 training _ q3 hq3
  obtain ⟨e4p, e4e⟩ := enc_state sqrt 256 512 m.e4 training _ q4 hq4
  obtain ⟨bp, be⟩ := dcb_state sqrt 512 1024 m.b training _ pb hpb
  obtain ⟨d1p, d1e⟩ := dec_state sqrt 1024 512 m.d1 training _ _ r1 hr1
  obtain ⟨d2p, d2e⟩ := dec_state sqrt 512 256 m.d2 training _ _ r2 hr2
  obtain ⟨d3p, d3e⟩ := dec_state sqrt 256 128 m.d3 training _ _ r3 hr3
  obtain ⟨d4p, d4e⟩ := dec_state sqrt 128 64 m.d4 training _ _ r4 hr4
  constructor
  · simp only [Generator.params]
    rw [e1p, e2p, e3p, e4p, bp, d1p, d2p, d3p, d4p]
  · intro hf
    show ({ e1 := q1.2, e2 := q2.2, e3 := q3.2, e4 := q4.2, b := pb.2,
            d1 := r1.2, d2 := r2.2, d3 := r3.2, d4 := r4.2,
            outputsW := m.outputsW, outputsB := m.outputsB } : Generator) = m
    rw [e1e hf, e2e hf, e3e hf, e4e hf, be hf, d1e hf, d2e hf, d3e hf, d4e hf]

/-- Claim C5, witness: the amended claim at a concrete eval-mode forward. -/
theorem c5_witness :
    Generator.params res0.2 = Generator.params gen0 ∧ (false = false → res0.2 = gen0) :=
  c5_generator_forward_state id gen0 false (zeros 1 1 16 16) res0 rfl

/-- Claim C6: for a `decoder_block` constructed with `(inC, outC)`, given
`x : (N, inC, H, W)` and `skip : (N, outC, 2H, 2W)`, the forward applies the
2×2 stride-2 transposed convolution `inC → outC` (doubling the spatial size),
concatenates the result with `skip` along the channel axis into `2·outC`
channels, applies the double conv block `2·outC → outC`, and returns a tensor
of shape `(N, outC, 2H, 2W)`. -/
theorem c6_decoder_shape (sqrt : ℚ → ℚ) (inC outC : ℕ) (m : decoder_block)
    (training : Bool) (x skip : Tensor4)
    (hc : x.c = inC) (hh : 1 ≤ x.h) (hw : 1 ≤ x.w)
    (hsn : skip.n = x.n) (hsc : skip.c = outC)
    (hsh : skip.h = 2 * x.h) (hsw : skip.w = 2 * x.w) :
    ∃ u cc q r,
      conv_transpose2d inC outC 2 2 0 (some m.upB) m.upW x = some u ∧
      u.n = x.n ∧ u.c = outC ∧ u.h = 2 * x.h ∧ u.w = 2 * x.w ∧
      cat4 u skip = some cc ∧ cc.c = 2 * outC ∧
      double_conv_block.forward sqrt (2 * outC) outC m.conv training cc = some q ∧
      decoder_block.forward sqrt inC outC m training x skip = some r ∧ r.1 = q.1 ∧
      r.1.n = x.n ∧ r.1.c = outC ∧ r.1.h = 2 * x.h ∧ r.1.w = 2 * x.w := by
  obtain ⟨u, cc, q, r, hu, un, uc, uh, uw, hcat, ccn, ccc, cch, ccw, ccd, hq, hr, hrq, _,
    rn, rc, rh, rw0⟩ :=
    decoder_chain_spec sqrt inC outC m training x skip hc hh hw hsn hsc hsh hsw
  exact ⟨u, cc, q, r, hu, un, uc, uh, uw, hcat, ccc, hq, hr, hrq, rn, rc, rh, rw0⟩

/-- Claim C6, witness: the claim at a concrete block and inputs
`x : (1, 1, 1, 1)`, `skip : (1, 1, 2, 2)`. -/
theorem c6_witness :
    ∃ u cc q r,
      conv_transpose2d 1 1 2 2 0 (some dec0.upB) dec0.upW (zeros 1 1 1 1) = some u ∧
      u.n = 1 ∧ u.c = 1 ∧ u.h = 2 ∧ u.w = 2 ∧
      cat4 u (zeros 1 1 2 2) = some cc ∧ cc.c = 2 ∧
      double_conv_block.forward id 2 1 dec0.conv false cc = some q ∧
      decoder_block.forward id 1 1 dec0 false (zeros 1 1 1 1) (zeros 1 1 2 2) = some r ∧
      r.1 = q.1 ∧ r.1.n = 1 ∧ r.1.c = 1 ∧ r.1.h = 2 ∧ r.1.w = 2 :=
  c6_decoder_shape id 1 1 dec0 false (zeros 1 1 1 1) (zeros 1 1 2 2)
    rfl (le_refl 1) (le_refl 1) rfl rfl rfl rfl

/-- Claim C7: for every valid input — the channel count matching, positive
spatial size, and (in training mode) more than one value per batch-norm
channel, which is what the underlying library accepts — the double conv block
preserves the spatial size exactly, whether H and W are odd or even:
`(N, inC, H, W)` is mapped to `(N, outC, H, W)`. -/
theorem c7_dcb_preserves_spatial (sqrt : ℚ → ℚ) (inC outC : ℕ)
    (m : double_conv_block) (training : Bool) (x : Tensor4)
    (hc : x.c = inC) (hh : 1 ≤ x.h) (hw : 1 ≤ x.w)
    (ht : training = true → x.n * x.h * x.w ≠ 1) :
    ∃ p, double_conv_block.forward sqrt inC outC m training x = some p ∧
      p.1.n = x.n ∧ p.1.c = outC ∧ p.1.h = x.h ∧ p.1.w = x.w :=
  dcb_spec sqrt inC outC m training x hc hh hw ht

/-- Claim C7, witness: the claim at an input with odd height 3 and even
width 4, in training mode. -/
theorem c7_witness :
    ∃ p, double_conv_block.forward id 1 2 dcb0 true (zeros 1 1 3 4) = some p ∧
      p.1.n = 1 ∧ p.1.c = 2 ∧ p.1.h = 3 ∧ p.1.w = 4 :=
  c7_dcb_preserves_spatial id 1 2 dcb0 true (zeros 1 1 3 4) rfl (by decide) (by decide)
    (fun _ => by decide)

/-- Claim C8: for every input tensor and every `conv_block` with
`norm = false`, the forward output is exactly the pipeline with the
normalization step removed — the leaky ReLU of the strided convolution —
so the constructed-but-unused instance normalization (and even the `sqrt`
it would need) has no effect on the result. -/
theorem c8_conv_block_skip_norm (sqrt : ℚ → ℚ) (inC outC : ℕ) (m : conv_block)
    (x : Tensor4) (hnorm : m.norm = false) :
    conv_block.forward sqrt inC outC m x = conv_block.forwardNoNorm inC outC m x := by
  unfold conv_block.forward conv_block.forwardNoNorm
  rw [hnorm]
  simp

/-- Claim C8, witness: the claim at a concrete block and input. -/
theorem c8_witness :
    conv_block.forward id 3 32 (cb0 false) (zeros 1 3 8 8) =
      conv_block.forwardNoNorm 3 32 (cb0 false) (zeros 1 3 8 8) :=
  c8_conv_block_skip_norm id 3 32 (cb0 false) (zeros 1 3 8 8) rfl

/-- Claim C9: not every convolution is bias-free — among all convolution-like
layers constructed by the two networks, exactly the Generator's final 1×1
output convolution and the 2×2 transposed convolution of each decoder block
carry a bias, while all 3×3 convolutions inside the double conv blocks and
every convolution of the Critic are constructed without bias. -/
theorem c9_conv_bias_pattern :
    Generator.layers.filter Layer.isAnyConv =
      [.conv2dL 1 64 3 1 1 false, .conv2dL 64 64 3 1 1 false,
       .conv2dL 64 128 3 1 1 false, .conv2dL 128 128 3 1 1 false,
       .conv2dL 128 256 3 1 1 false, .conv2dL 256 256 3 1 1 false,
       .conv2dL 256 512 3 1 1 false, .conv2dL 512 512 3 1 1 false,
       .conv2dL 512 1024 3 1 1 false, .conv2dL 1024 1024 3 1 1 false,
       .convT2dL 1024 512 2 2 0 true, .conv2dL 1024 512 3 1 1 false,
       .conv2dL 512 512 3 1 1 false,
       .convT2dL 512 256 2 2 0 true, .conv2dL 512 256 3 1 1 false,
       .conv2dL 256 256 3 1 1 false,
       .convT2dL 256 128 2 2 0 true, .conv2dL 256 128 3 1 1 false,
       .conv2dL 128 128 3 1 1 false,
       .convT2dL 128 64 2 2 0 true, .conv2dL 128 64 3 1 1 false,
       .conv2dL 64 64 3 1 1 false,
       .conv2dL 64 2 1 1 0 true] ∧
    Critic.layers.filter Layer.isAnyConv =
      [.conv2dL 3 32 4 2 1 false, .conv2dL 32 64 4 2 1 false,
       .conv2dL 64 128 4 2 1 false, .conv2dL 128 256 4 2 1 false,
       .conv2dL 256 512 4 2 1 false, .conv2dL 512 1 4 1 0 false] :=
  ⟨rfl, rfl⟩

/-- Claim C10: in `decoder_block.forward`, the channel-axis concatenation
places the upsampled tensor's `outC` channels first and the skip tensor's
`outC` channels second, in that fixed order. -/
theorem c10_decoder_cat_order (sqrt : ℚ → ℚ) (inC outC : ℕ) (m : decoder_block)
    (training : Bool) (x skip : Tensor4)
    (hc : x.c = inC) (hh : 1 ≤ x.h) (hw : 1 ≤ x.w)
    (hsn : skip.n = x.n) (hsc : skip.c = outC)
    (hsh : skip.h = 2 * x.h) (hsw : skip.w = 2 * x.w) :
    ∃ u cc q r,
      conv_transpose2d inC outC 2 2 0 (some m.upB) m.upW x = some u ∧
      cat4 u skip = some cc ∧
      double_conv_block.forward sqrt (2 * outC) outC m.conv training cc = some q ∧
      decoder_block.forward sqrt inC outC m training x skip = some r ∧ r.1 = q.1 ∧
      (∀ nn ch i j, ch < outC → cc.data nn ch i j = u.data nn ch i j) ∧
      (∀ nn ch i j, outC ≤ ch → cc.data nn ch i j = skip.data nn (ch - outC) i j) := by
  obtain ⟨u, cc, q, r, hu, un, uc, uh, uw, hcat, ccn, ccc, cch, ccw, ccd, hq, hr, hrq, _,
    _, _, _, _⟩ :=
    decoder_chain_spec sqrt inC outC m training x skip hc hh hw hsn hsc hsh hsw
  refine ⟨u, cc, q, r, hu, hcat, hq, hr, hrq, ?_, ?_⟩
  · intro nn ch i j hch
    rw [ccd]
    simp only [catData]
    rw [if_pos (by omega)]
  · intro nn ch i j hch
    rw [ccd]
    simp only [catData]
    rw [if_neg (by omega), uc]

/-- Claim C10, witness: the claim at a concrete block and inputs. -/
theorem c10_witness :
    ∃ u cc q r,
      conv_transpose2d 2 1 2 2 0 (some dec0.upB) dec0.upW (zeros 1 2 1 1) = some u ∧
      cat4 u (zeros 1 1 2 2) = some cc ∧
      double_conv_block.forward id 2 1 dec0.conv false cc = some q ∧
      decoder_block.forward id 2 1 dec0 false (zeros 1 2 1 1) (zeros 1 1 2 2) = some r ∧
      r.1 = q.1 ∧
      (∀ nn ch i j, ch < 1 → cc.data nn ch i j = u.data nn ch i j) ∧
      (∀ nn ch i j, 1 ≤ ch → cc.data nn ch i j = (zeros 1 1 2 2).data nn (ch - 1) i j) :=
  c10_decoder_cat_order id 2 1 dec0 false (zeros 1 2 1 1) (zeros 1 1 2 2)
    rfl (le_refl 1) (le_refl 1) rfl rfl rfl rfl

end ImageColoring
